import Mathlib

/-!
Verification of the FLAC metadata decoder in `info.go` (goflac-meta).

The decoders are shallowly embedded over byte buffers modelled as `List Nat`
(a Go `byte` is a value `0 ≤ b < 256`; the readers reduce each byte
`% 256` exactly where Go's `uint8` type bounds it).  The Go cursor
`bytes.Buffer.Next n` returns the first `min n remaining` bytes and advances:
it is modelled by `List.take` / `List.drop`, which have exactly that
truncating behaviour.  The fixed-width readers of `encoding/binary`
(`BigEndian.Uint16`, `BigEndian.Uint64`, `LittleEndian.Uint32`) index
`b[0] … b[w-1]` and hence raise a runtime index-out-of-range panic when the
slice is shorter than the width: that panic is modelled by `Option.none`,
and a decoder that would panic mid-way therefore returns `none` (Go: the
whole call panics, no partial result escapes).
-/

namespace GoFlacMeta

/-- Models Go `binary.BigEndian.Uint16 b`: requires at least 2 bytes
(`none` models the index-out-of-range panic), value `b[0]<<8 | b[1]`. -/
def binaryBigEndianUint16 (b : List Nat) : Option Nat :=
  if 2 ≤ b.length then
    some (b.getD 0 0 % 256 * 256 + b.getD 1 0 % 256)
  else none

/-- Models Go `binary.BigEndian.Uint64 b`: requires at least 8 bytes
(`none` models the index-out-of-range panic), big-endian value of
`b[0] … b[7]`. -/
def binaryBigEndianUint64 (b : List Nat) : Option Nat :=
  if 8 ≤ b.length then
    some (b.getD 0 0 % 256 * 2 ^ 56 + b.getD 1 0 % 256 * 2 ^ 48 +
          b.getD 2 0 % 256 * 2 ^ 40 + b.getD 3 0 % 256 * 2 ^ 32 +
          b.getD 4 0 % 256 * 2 ^ 24 + b.getD 5 0 % 256 * 2 ^ 16 +
          b.getD 6 0 % 256 * 2 ^ 8 + b.getD 7 0 % 256)
  else none

/-- Models Go `binary.LittleEndian.Uint32 b`: requires at least 4 bytes
(`none` models the index-out-of-range panic), little-endian value of
`b[0] … b[3]`. -/
def binaryLittleEndianUint32 (b : List Nat) : Option Nat :=
  if 4 ≤ b.length then
    some (b.getD 0 0 % 256 + b.getD 1 0 % 256 * 2 ^ 8 +
          b.getD 2 0 % 256 * 2 ^ 16 + b.getD 3 0 % 256 * 2 ^ 24)
  else none

/-- The static block-type registry `METADATA_BLOCK_HEADER_TYPES` of
`info.go`: a map literal from `uint32` codes to names. -/
def METADATA_BLOCK_HEADER_TYPES : List (Nat × String) :=
  [(0, "STREAMINFO"),
   (1, "PADDING"),
   (2, "APPLICATION"),
   (3, "SEEKTABLE"),
   (4, "VORBIS_COMMENT"),
   (5, "CUESHEET"),
   (6, "PICTURE"),
   (127, "INVALID")]

/-- Go map indexing `METADATA_BLOCK_HEADER_TYPES[k]`: yields the mapped
string, or the zero value `""` when the key is absent. -/
def mapIndexHeaderTypes (k : Nat) : String :=
  (METADATA_BLOCK_HEADER_TYPES.lookup k).getD ""

/-- `HeaderType` of `info.go`: registry lookup, `"UNKNOWN"` when the map
yields the zero value. -/
def HeaderType (k : Nat) : String :=
  if mapIndexHeaderTypes k = "" then "UNKNOWN" else mapIndexHeaderTypes k

/-- `FLACMetadataBlockHeader` of `info.go`. -/
structure FLACMetadataBlockHeader where
  «Type» : Nat
  Length : Nat
  Last : Bool
deriving DecidableEq, Repr

/-- Mask `LASTBLOCK` of `FLACParseMetadataBlockHeader`. -/
def LASTBLOCK : Nat := 0x80000000
/-- Mask `BLOCKTYPE` of `FLACParseMetadataBlockHeader`. -/
def BLOCKTYPE : Nat := 0x7F000000
/-- Mask `BLOCKLEN` of `FLACParseMetadataBlockHeader`. -/
def BLOCKLEN : Nat := 0x00FFFFFF

/-- `FLACParseMetadataBlockHeader` of `info.go`: total over the 32-bit
input word, no failure case. -/
def FLACParseMetadataBlockHeader (block : Nat) : FLACMetadataBlockHeader :=
  { «Type» := (BLOCKTYPE &&& block) >>> 24
    Length := BLOCKLEN &&& block
    Last := (LASTBLOCK &&& block) >>> 31 == 1 }

/-- `FLACStreaminfoBlock` of `info.go`.  Numeric fields keep their Go
widths via `% 2 ^ w` at construction. -/
structure FLACStreaminfoBlock where
  MinBlockSize : Nat
  MaxBlockSize : Nat
  MinFrameSize : Nat
  MaxFrameSize : Nat
  SampleRate : Nat
  Channels : Nat
  BitsPerSample : Nat
  TotalSamples : Nat
  MD5Signature : String
deriving DecidableEq, Repr

/-- Mask `minFSMask` of `FLACParseStreaminfoBlock` (all 64 bits set). -/
def minFSMask : Nat := 0xFFFFFFFFFFFFFFFF
/-- Mask `maxFSMask` of `FLACParseStreaminfoBlock`. -/
def maxFSMask : Nat := 0x0000000000FFFFFF
/-- Mask `sampRateMask` of `FLACParseStreaminfoBlock`. -/
def sampRateMask : Nat := 0xFFFFF00000000000
/-- Mask `bitsPerSampMask` of `FLACParseStreaminfoBlock`. -/
def bitsPerSampMask : Nat := 0x1F000000000
/-- Mask `chMask` of `FLACParseStreaminfoBlock`. -/
def chMask : Nat := 0xE0000000000
/-- Mask `totSampMask` of `FLACParseStreaminfoBlock`. -/
def totSampMask : Nat := 0x0000000FFFFFFFFF

/-- The lowercase hexadecimal digit table used by Go's `fmt` package
(`const lowerhex = "0123456789abcdef"`). -/
def lowerhex : String := "0123456789abcdef"

/-- The lowercase hexadecimal digit characters, in value order. -/
def hexDigitChars : List Char := lowerhex.data

/-- One byte rendered as two lowercase hex characters (Go `fmt` verb `%x`
renders each byte of a slice as exactly two lowercase hex digits). -/
def byteToHex (b : Nat) : List Char :=
  [hexDigitChars.getD (b / 16 % 16) '0', hexDigitChars.getD (b % 16) '0']

/-- Models `fmt.Sprintf` with verb `%x` applied to a byte slice:
two lowercase hex digits per byte, in slice order. -/
def goSprintfHexBytes (s : List Nat) : String :=
  String.mk (s.flatMap byteToHex)

/-- `FLACParseStreaminfoBlock` of `info.go`.  The cursor is
`bytes.NewBuffer block`; each `b.Next n` is a `take`/`drop` pair.
`none` models the panic of a fixed-width read on a short buffer. -/
def FLACParseStreaminfoBlock (block : List Nat) : Option FLACStreaminfoBlock :=
  match binaryBigEndianUint16 (block.take 2) with
  | none => none
  | some minBlockSize =>
    let b1 := block.drop 2
    match binaryBigEndianUint64 (b1.take 8) with
    | none => none
    | some bigint1 =>
      let b2 := b1.drop 8
      match binaryBigEndianUint64 (b2.take 8) with
      | none => none
      | some bigint2 =>
        some
          { MinBlockSize := minBlockSize
            MaxBlockSize := ((minFSMask &&& bigint1) >>> 48) % 2 ^ 16
            MinFrameSize := ((minFSMask &&& bigint1) >>> 24) % 2 ^ 32
            MaxFrameSize := (maxFSMask &&& bigint1) % 2 ^ 32
            SampleRate := ((sampRateMask &&& bigint2) >>> 44) % 2 ^ 32
            Channels := (((chMask &&& bigint2) >>> 41) % 2 ^ 8 + 1) % 2 ^ 8
            BitsPerSample := (((bitsPerSampMask &&& bigint2) >>> 36) % 2 ^ 8 + 1) % 2 ^ 8
            TotalSamples := bigint2 &&& totSampMask
            MD5Signature := goSprintfHexBytes ((b2.drop 8).take 16) }

/-- `FLACVorbisCommentBlock` of `info.go`.  Go strings are byte
sequences taken verbatim from the buffer, modelled as `List Nat`. -/
structure FLACVorbisCommentBlock where
  Vendor : List Nat
  TotalComments : Nat
  Comments : List (List Nat)
deriving DecidableEq, Repr

/-- The comment loop of `FLACParseVorbisCommentBlock`: iterates the
declared count, each round reading a 32-bit little-endian length and
then that many bytes (truncated to what remains) as one comment,
appended in read order.  `none` models the panic of the length read
when fewer than 4 bytes remain. -/
def vorbisCommentLoop : Nat → List Nat → List (List Nat) → Option (List (List Nat))
  | 0, _, acc => some acc
  | tc + 1, rest, acc =>
    match binaryLittleEndianUint32 (rest.take 4) with
    | none => none
    | some len =>
      vorbisCommentLoop tc ((rest.drop 4).drop len) (acc ++ [(rest.drop 4).take len])

/-- `FLACParseVorbisCommentBlock` of `info.go`: 32-bit little-endian
vendor length, vendor bytes, 32-bit little-endian comment count, then
the comment loop.  String reads (`b.Next`) silently truncate; `none`
models the panic of a 32-bit length read on fewer than 4 bytes. -/
def FLACParseVorbisCommentBlock (block : List Nat) : Option FLACVorbisCommentBlock :=
  match binaryLittleEndianUint32 (block.take 4) with
  | none => none
  | some vendorLen =>
    let b1 := block.drop 4
    let vendor := b1.take vendorLen
    let b2 := b1.drop vendorLen
    match binaryLittleEndianUint32 (b2.take 4) with
    | none => none
    | some totalComments =>
      match vorbisCommentLoop totalComments (b2.drop 4) [] with
      | none => none
      | some comments =>
        some { Vendor := vendor, TotalComments := totalComments, Comments := comments }

/-! ### Specification-side definitions

These follow the spec's words and are compared against the embedded code. -/

/-- Modelled from the spec: re-packing a decoded header with the layout
bit 31 = isLast, bits 30–24 = type, bits 23–0 = length. -/
def packMetadataBlockHeader (mbh : FLACMetadataBlockHeader) : Nat :=
  (if mbh.Last then 2 ^ 31 else 0) + mbh.«Type» * 2 ^ 24 + mbh.Length

/-- The little-endian 4-byte encoding of a 32-bit value (spec side). -/
def encodeLE32 (n : Nat) : List Nat :=
  [n % 256, n / 2 ^ 8 % 256, n / 2 ^ 16 % 256, n / 2 ^ 24 % 256]

/-- The spec's VORBIS_COMMENT body layout: little-endian vendor length,
vendor bytes, little-endian comment count, then per comment a
little-endian length followed by its bytes, in order. -/
def encodeVorbisComment (vendor : List Nat) (comments : List (List Nat)) : List Nat :=
  encodeLE32 vendor.length ++ (vendor ++ (encodeLE32 comments.length ++
    (comments.map fun c => encodeLE32 c.length ++ c).flatten))

/-- Availability of the 32-bit comment-length fields: each of `tc`
iterations finds its full 4 length bytes at the cursor position where
the code reads them (the following string bytes may be truncated). -/
def commentLengthsAvailable : Nat → List Nat → Bool
  | 0, _ => true
  | tc + 1, rest =>
    decide (4 ≤ rest.length) &&
      commentLengthsAvailable tc
        ((rest.drop 4).drop ((binaryLittleEndianUint32 (rest.take 4)).getD 0))

/-- Availability of every 32-bit integer field of a VORBIS_COMMENT body:
the vendor length, the comment count, and all declared comment lengths
each have their full 4 bytes at the position where they are read. -/
def vorbisFieldsAvailable (block : List Nat) : Bool :=
  decide (4 ≤ block.length) &&
    (let vendorLen := (binaryLittleEndianUint32 (block.take 4)).getD 0
     let b2 := (block.drop 4).drop vendorLen
     decide (4 ≤ b2.length) &&
       commentLengthsAvailable ((binaryLittleEndianUint32 (b2.take 4)).getD 0) (b2.drop 4))

/-! ### Bit-extraction helper lemmas -/

/-- Extracting a `k`-bit field at offset `s` by mask-and-shift equals
divide-and-mod. -/
theorem land_mask_shiftRight (w k s : Nat) :
    (w &&& ((2 ^ k - 1) <<< s)) >>> s = w / 2 ^ s % 2 ^ k := by
  apply Nat.eq_of_testBit_eq
  intro j
  rw [← Nat.shiftRight_eq_div_pow]
  simp only [Nat.testBit_shiftRight, Nat.testBit_and, Nat.testBit_shiftLeft,
    Nat.testBit_two_pow_sub_one, Nat.testBit_mod_two_pow]
  have h1 : s + j - s = j := by omega
  have h2 : s ≤ s + j := by omega
  rw [h1, decide_eq_true h2]
  simp only [Bool.true_and]
  exact Bool.and_comm _ _

theorem BLOCKTYPE_extract (w : Nat) : (BLOCKTYPE &&& w) >>> 24 = w / 2 ^ 24 % 2 ^ 7 := by
  have h : BLOCKTYPE = (2 ^ 7 - 1) <<< 24 := by decide
  rw [h, Nat.land_comm, land_mask_shiftRight]

theorem BLOCKLEN_extract (w : Nat) : BLOCKLEN &&& w = w % 2 ^ 24 := by
  have h : BLOCKLEN = 2 ^ 24 - 1 := by decide
  rw [h, Nat.land_comm]
  exact Nat.and_pow_two_sub_one_eq_mod w 24

theorem LASTBLOCK_extract (w : Nat) : (LASTBLOCK &&& w) >>> 31 = w / 2 ^ 31 % 2 := by
  have h : LASTBLOCK = (2 ^ 1 - 1) <<< 31 := by decide
  rw [h, Nat.land_comm, land_mask_shiftRight, pow_one]

theorem sampRateMask_extract (w : Nat) :
    (sampRateMask &&& w) >>> 44 = w / 2 ^ 44 % 2 ^ 20 := by
  have h : sampRateMask = (2 ^ 20 - 1) <<< 44 := by decide
  rw [h, Nat.land_comm, land_mask_shiftRight]

theorem chMask_extract (w : Nat) : (chMask &&& w) >>> 41 = w / 2 ^ 41 % 2 ^ 3 := by
  have h : chMask = (2 ^ 3 - 1) <<< 41 := by decide
  rw [h, Nat.land_comm, land_mask_shiftRight]

theorem bitsPerSampMask_extract (w : Nat) :
    (bitsPerSampMask &&& w) >>> 36 = w / 2 ^ 36 % 2 ^ 5 := by
  have h : bitsPerSampMask = (2 ^ 5 - 1) <<< 36 := by decide
  rw [h, Nat.land_comm, land_mask_shiftRight]

theorem totSampMask_extract (w : Nat) : w &&& totSampMask = w % 2 ^ 36 := by
  have h : totSampMask = 2 ^ 36 - 1 := by decide
  rw [h]
  exact Nat.and_pow_two_sub_one_eq_mod w 36

theorem minFSMask_extract (w : Nat) : minFSMask &&& w = w % 2 ^ 64 := by
  have h : minFSMask = 2 ^ 64 - 1 := by decide
  rw [h, Nat.land_comm]
  exact Nat.and_pow_two_sub_one_eq_mod w 64

theorem maxFSMask_extract (w : Nat) : maxFSMask &&& w = w % 2 ^ 24 := by
  have h : maxFSMask = 2 ^ 24 - 1 := by decide
  rw [h, Nat.land_comm]
  exact Nat.and_pow_two_sub_one_eq_mod w 24

/-! ### Reader helper lemmas -/

theorem binaryBigEndianUint16_none_iff (b : List Nat) :
    binaryBigEndianUint16 b = none ↔ b.length < 2 := by
  unfold binaryBigEndianUint16
  split <;> simp <;> omega

theorem binaryBigEndianUint64_none_iff (b : List Nat) :
    binaryBigEndianUint64 b = none ↔ b.length < 8 := by
  unfold binaryBigEndianUint64
  split <;> simp <;> omega

theorem binaryLittleEndianUint32_none_iff (b : List Nat) :
    binaryLittleEndianUint32 b = none ↔ b.length < 4 := by
  unfold binaryLittleEndianUint32
  split <;> simp <;> omega

theorem binaryBigEndianUint64_lt {b : List Nat} {w : Nat}
    (h : binaryBigEndianUint64 b = some w) : w < 2 ^ 64 := by
  unfold binaryBigEndianUint64 at h
  split at h
  · injection h with h
    subst h
    have h0 := Nat.mod_lt (b.getD 0 0) (y := 256) (by omega)
    have h1 := Nat.mod_lt (b.getD 1 0) (y := 256) (by omega)
    have h2 := Nat.mod_lt (b.getD 2 0) (y := 256) (by omega)
    have h3 := Nat.mod_lt (b.getD 3 0) (y := 256) (by omega)
    have h4 := Nat.mod_lt (b.getD 4 0) (y := 256) (by omega)
    have h5 := Nat.mod_lt (b.getD 5 0) (y := 256) (by omega)
    have h6 := Nat.mod_lt (b.getD 6 0) (y := 256) (by omega)
    have h7 := Nat.mod_lt (b.getD 7 0) (y := 256) (by omega)
    simp only [Nat.reducePow] at *
    omega
  · cases h

/-! ### Claim C3: block-header decode/encode round trip -/

/-- C3: for every 32-bit word `w`, decoding with `FLACParseMetadataBlockHeader`
(which is total: every 32-bit pattern yields a header, no failure case) and
re-packing the resulting fields with the layout bit 31 = isLast,
bits 30–24 = type, bits 23–0 = length reproduces `w` exactly. -/
theorem c3_header_decode_roundtrip (w : Nat) (h : w < 2 ^ 32) :
    packMetadataBlockHeader (FLACParseMetadataBlockHeader w) = w := by
  simp only [packMetadataBlockHeader, FLACParseMetadataBlockHeader,
    LASTBLOCK_extract, BLOCKTYPE_extract, BLOCKLEN_extract]
  simp only [Nat.reducePow] at *
  rcases Nat.mod_two_eq_zero_or_one (w / 2147483648) with h2 | h2
  · rw [h2, if_neg (by decide)]
    omega
  · rw [h2, if_pos (by decide)]
    omega

/-- C3 witness at the concrete header word `0xABCDEF12`. -/
theorem c3_witness :
    packMetadataBlockHeader (FLACParseMetadataBlockHeader 0xABCDEF12) = 0xABCDEF12 :=
  c3_header_decode_roundtrip 0xABCDEF12 (by decide)

/-! ### Claim C1: the MinFrameSize extraction bug -/

/-- C1 (code bug): on this 34-byte STREAMINFO body the second 64-bit window is
`0x0001000000000000`: maxBlockSize = 1, the 24-bit minFrameSize field
(bits 47–24) = 0, maxFrameSize = 0.  Yet the decoder yields
`MinFrameSize = 16777216 = 2 ^ 24`: `minFSMask` is all ones, so
`uint32(bigint >> 24)` keeps bits 55–24 of the window, capturing the low
8 bits of the maxBlockSize field instead of only the 24-bit minFrameSize
field documented in the function's own layout comment (`<24> - Minimum
frame size`). -/
theorem c1_minFrameSize_includes_maxBlockSize_bits :
    FLACParseStreaminfoBlock ([0, 0, 0, 1, 0, 0, 0, 0, 0, 0] ++ List.replicate 24 0) =
      some { MinBlockSize := 0, MaxBlockSize := 1, MinFrameSize := 16777216,
             MaxFrameSize := 0, SampleRate := 0, Channels := 1, BitsPerSample := 1,
             TotalSamples := 0,
             MD5Signature := "00000000000000000000000000000000" } ∧
    (0x0001000000000000 : Nat) / 2 ^ 24 % 2 ^ 24 = 0 := by
  constructor
  · decide
  · norm_num

/-! ### Claim C4: the third STREAMINFO read -/

/-- C4: for every 34-byte STREAMINFO body, the third read is the 64-bit
big-endian window over bytes 10–17, split as sampleRate = top 20 bits,
channels = next 3 bits plus 1, bitsPerSample = next 5 bits plus 1,
totalSamples = bottom 36 bits (so channels field 0 decodes to 1 and 7 to 8,
bitsPerSample field 0 decodes to 1 and 0x1F to 32). -/
theorem c4_streaminfo_window3_split (block : List Nat) (h34 : block.length = 34)
    (w : Nat) (hw : binaryBigEndianUint64 ((block.drop 10).take 8) = some w) :
    ∃ sib, FLACParseStreaminfoBlock block = some sib ∧
      sib.SampleRate = w / 2 ^ 44 ∧
      sib.Channels = w / 2 ^ 41 % 2 ^ 3 + 1 ∧
      sib.BitsPerSample = w / 2 ^ 36 % 2 ^ 5 + 1 ∧
      sib.TotalSamples = w % 2 ^ 36 := by
  have hw64 : w < 2 ^ 64 := binaryBigEndianUint64_lt hw
  rcases h1 : binaryBigEndianUint16 (block.take 2) with _ | v1
  · exfalso
    have hl := (binaryBigEndianUint16_none_iff _).1 h1
    simp only [List.length_take] at hl
    omega
  rcases h2 : binaryBigEndianUint64 ((block.drop 2).take 8) with _ | w1
  · exfalso
    have hl := (binaryBigEndianUint64_none_iff _).1 h2
    simp only [List.length_take, List.length_drop] at hl
    omega
  have hw' : binaryBigEndianUint64 (((block.drop 2).drop 8).take 8) = some w := by
    rw [List.drop_drop]
    exact hw
  have hd : FLACParseStreaminfoBlock block = some
      { MinBlockSize := v1
        MaxBlockSize := ((minFSMask &&& w1) >>> 48) % 2 ^ 16
        MinFrameSize := ((minFSMask &&& w1) >>> 24) % 2 ^ 32
        MaxFrameSize := (maxFSMask &&& w1) % 2 ^ 32
        SampleRate := ((sampRateMask &&& w) >>> 44) % 2 ^ 32
        Channels := (((chMask &&& w) >>> 41) % 2 ^ 8 + 1) % 2 ^ 8
        BitsPerSample := (((bitsPerSampMask &&& w) >>> 36) % 2 ^ 8 + 1) % 2 ^ 8
        TotalSamples := w &&& totSampMask
        MD5Signature := goSprintfHexBytes ((((block.drop 2).drop 8).drop 8).take 16) } := by
    simp only [FLACParseStreaminfoBlock, h1, h2, hw']
  refine ⟨_, hd, ?_, ?_, ?_, ?_⟩
  · show ((sampRateMask &&& w) >>> 44) % 2 ^ 32 = w / 2 ^ 44
    rw [sampRateMask_extract]
    simp only [Nat.reducePow] at hw64 ⊢
    omega
  · show (((chMask &&& w) >>> 41) % 2 ^ 8 + 1) % 2 ^ 8 = w / 2 ^ 41 % 2 ^ 3 + 1
    rw [chMask_extract]
    simp only [Nat.reducePow]
    omega
  · show (((bitsPerSampMask &&& w) >>> 36) % 2 ^ 8 + 1) % 2 ^ 8 = w / 2 ^ 36 % 2 ^ 5 + 1
    rw [bitsPerSampMask_extract]
    simp only [Nat.reducePow]
    omega
  · exact totSampMask_extract w

/-- C4 witness: the all-zero 34-byte body, window value 0: sampleRate 0,
channels 1, bitsPerSample 1, totalSamples 0. -/
theorem c4_witness :
    ∃ sib, FLACParseStreaminfoBlock (List.replicate 34 0) = some sib ∧
      sib.SampleRate = 0 / 2 ^ 44 ∧
      sib.Channels = 0 / 2 ^ 41 % 2 ^ 3 + 1 ∧
      sib.BitsPerSample = 0 / 2 ^ 36 % 2 ^ 5 + 1 ∧
      sib.TotalSamples = 0 % 2 ^ 36 :=
  c4_streaminfo_window3_split (List.replicate 34 0) (by decide) 0 (by decide)

/-! ### Claim C5: short buffers -/

/-- C5 counterexample: the decoders do panic on short input.  On the empty
buffer both decoders reach a fixed-width `encoding/binary` read of an
out-of-range slice (modelled `none`, the implicit index-out-of-range
panic); no typed BoundsError value exists anywhere in the code. -/
theorem c5_counterexample :
    FLACParseStreaminfoBlock [] = none ∧ FLACParseVorbisCommentBlock [] = none := by
  constructor
  · decide
  · decide

/-- C5 amended: a STREAMINFO body shorter than a fixed-width read requires
aborts with an implicit index-out-of-range panic (modelled `none`), not a
typed BoundsError; the panic occurs exactly when the body is shorter than
18 bytes (2 + 8 + 8), while bodies of 18 to 33 bytes — still shorter than
the 34-byte layout — decode without failure, the trailing MD5 bytes being
silently truncated by the cursor. -/
theorem c5_amended_streaminfo_panics_iff_short (block : List Nat) :
    FLACParseStreaminfoBlock block = none ↔ block.length < 18 := by
  rcases h1 : binaryBigEndianUint16 (block.take 2) with _ | v1
  · have hl := (binaryBigEndianUint16_none_iff _).1 h1
    simp only [List.length_take] at hl
    simp only [FLACParseStreaminfoBlock, h1]
    simp
    omega
  rcases h2 : binaryBigEndianUint64 ((block.drop 2).take 8) with _ | w1
  · have hl := (binaryBigEndianUint64_none_iff _).1 h2
    simp only [List.length_take, List.length_drop] at hl
    simp only [FLACParseStreaminfoBlock, h1, h2]
    simp
    omega
  rcases h3 : binaryBigEndianUint64 (((block.drop 2).drop 8).take 8) with _ | w2
  · have hl := (binaryBigEndianUint64_none_iff _).1 h3
    simp only [List.length_take, List.length_drop] at hl
    simp only [FLACParseStreaminfoBlock, h1, h2, h3]
    simp
    omega
  · have hk := (binaryBigEndianUint64_none_iff (((block.drop 2).drop 8).take 8))
    simp only [FLACParseStreaminfoBlock, h1, h2, h3]
    simp only [List.length_take, List.length_drop] at hk
    constructor
    · intro hc
      cases hc
    · intro hc
      rw [hk.2 (by omega)] at h3
      cases h3

/-- C5 amended witness: the characterization applied to a concrete 17-byte
body (one byte short of the third fixed-width read). -/
theorem c5_amended_witness :
    FLACParseStreaminfoBlock (List.replicate 17 0) = none ↔
      (List.replicate 17 0).length < 18 :=
  c5_amended_streaminfo_panics_iff_short (List.replicate 17 0)

/-! ### Claim C8: the MD5 signature rendering -/

theorem hexDigitChars_getD_mem (i : Nat) : hexDigitChars.getD i '0' ∈ hexDigitChars := by
  by_cases h : i < 16
  · interval_cases i <;> decide
  · have hlen : hexDigitChars.length ≤ i := by
      have h16 : hexDigitChars.length = 16 := by decide
      omega
    simp only [List.getD_eq_getElem?_getD, List.getElem?_eq_none hlen, Option.getD_none]
    decide

theorem goSprintfHexBytes_length (s : List Nat) :
    (goSprintfHexBytes s).length = 2 * s.length := by
  show (s.flatMap byteToHex).length = 2 * s.length
  induction s with
  | nil => rfl
  | cons b t ih =>
    simp only [List.flatMap_cons, List.length_append, List.length_cons, ih, byteToHex]
    simp
    omega

theorem goSprintfHexBytes_mem (s : List Nat) :
    ∀ c ∈ (goSprintfHexBytes s).data, c ∈ hexDigitChars := by
  intro c hc
  have hm : c ∈ s.flatMap byteToHex := hc
  rw [List.mem_flatMap] at hm
  obtain ⟨a, _, hm⟩ := hm
  simp only [byteToHex, List.mem_cons, List.mem_singleton, List.not_mem_nil, or_false] at hm
  rcases hm with h | h
  · rw [h]
    exact hexDigitChars_getD_mem _
  · rw [h]
    exact hexDigitChars_getD_mem _

/-- C8: for every 34-byte STREAMINFO body the final 16 bytes render as the
MD5 signature string: the bytes in encounter order, two lowercase hex
characters each, 32 characters in total; concretely, 16 zero bytes give 32
zero digits and bytes 0x01 … 0x10 give "0102030405060708090a0b0c0d0e0f10". -/
theorem c8_md5_hex_rendering :
    (∀ block : List Nat, block.length = 34 →
      ∃ sib, FLACParseStreaminfoBlock block = some sib ∧
        sib.MD5Signature = goSprintfHexBytes ((block.drop 18).take 16) ∧
        sib.MD5Signature.length = 32 ∧
        ∀ c ∈ sib.MD5Signature.data, c ∈ hexDigitChars) ∧
    (FLACParseStreaminfoBlock (List.replicate 34 0)).map FLACStreaminfoBlock.MD5Signature =
      some "00000000000000000000000000000000" ∧
    (FLACParseStreaminfoBlock (List.replicate 18 0 ++
        [1, 2, 3, 4, 5, 6, 7, 8, 9, 10, 11, 12, 13, 14, 15, 16])).map
      FLACStreaminfoBlock.MD5Signature = some "0102030405060708090a0b0c0d0e0f10" := by
  refine ⟨?_, by decide, by decide⟩
  intro block h34
  rcases h1 : binaryBigEndianUint16 (block.take 2) with _ | v1
  · exfalso
    have hl := (binaryBigEndianUint16_none_iff _).1 h1
    simp only [List.length_take] at hl
    omega
  rcases h2 : binaryBigEndianUint64 ((block.drop 2).take 8) with _ | w1
  · exfalso
    have hl := (binaryBigEndianUint64_none_iff _).1 h2
    simp only [List.length_take, List.length_drop] at hl
    omega
  rcases h3 : binaryBigEndianUint64 (((block.drop 2).drop 8).take 8) with _ | w2
  · exfalso
    have hl := (binaryBigEndianUint64_none_iff _).1 h3
    simp only [List.length_take, List.length_drop] at hl
    omega
  have hdd : (((block.drop 2).drop 8).drop 8) = block.drop 18 := by
    simp [List.drop_drop]
  have hd : FLACParseStreaminfoBlock block = some
      { MinBlockSize := v1
        MaxBlockSize := ((minFSMask &&& w1) >>> 48) % 2 ^ 16
        MinFrameSize := ((minFSMask &&& w1) >>> 24) % 2 ^ 32
        MaxFrameSize := (maxFSMask &&& w1) % 2 ^ 32
        SampleRate := ((sampRateMask &&& w2) >>> 44) % 2 ^ 32
        Channels := (((chMask &&& w2) >>> 41) % 2 ^ 8 + 1) % 2 ^ 8
        BitsPerSample := (((bitsPerSampMask &&& w2) >>> 36) % 2 ^ 8 + 1) % 2 ^ 8
        TotalSamples := w2 &&& totSampMask
        MD5Signature := goSprintfHexBytes ((block.drop 18).take 16) } := by
    rw [← hdd]
    simp only [FLACParseStreaminfoBlock, h1, h2, h3]
  refine ⟨_, hd, rfl, ?_, goSprintfHexBytes_mem _⟩
  show (goSprintfHexBytes ((block.drop 18).take 16)).length = 32
  rw [goSprintfHexBytes_length]
  simp only [List.length_take, List.length_drop, h34]
  decide

/-- C8 witness: the general part applied to the all-zero 34-byte body. -/
theorem c8_witness :
    ∃ sib, FLACParseStreaminfoBlock (List.replicate 34 0) = some sib ∧
      sib.MD5Signature = goSprintfHexBytes (((List.replicate 34 0).drop 18).take 16) ∧
      sib.MD5Signature.length = 32 ∧
      ∀ c ∈ sib.MD5Signature.data, c ∈ hexDigitChars :=
  c8_md5_hex_rendering.1 (List.replicate 34 0) (by decide)

/-! ### Vorbis-comment helper lemmas -/

theorem le32_roundtrip (n : Nat) (h : n < 2 ^ 32) :
    binaryLittleEndianUint32 (encodeLE32 n) = some n := by
  unfold binaryLittleEndianUint32 encodeLE32
  rw [if_pos (by simp)]
  simp only [List.getD_cons_zero, List.getD_cons_succ, Option.some.injEq]
  simp only [Nat.reducePow] at h ⊢
  omega

theorem vorbisCommentLoop_encode (comments : List (List Nat)) :
    ∀ acc, (∀ c ∈ comments, c.length < 2 ^ 32) →
      vorbisCommentLoop comments.length
        ((comments.map fun c => encodeLE32 c.length ++ c).flatten) acc =
        some (acc ++ comments) := by
  induction comments with
  | nil =>
    intro acc _
    simp [vorbisCommentLoop]
  | cons c cs ih =>
    intro acc h
    have hc : c.length < 2 ^ 32 := h c (by simp)
    simp only [List.map_cons, List.flatten_cons, List.length_cons, List.append_assoc]
    have hread : binaryLittleEndianUint32
        ((encodeLE32 c.length ++ (c ++ (cs.map fun d => encodeLE32 d.length ++ d).flatten)).take 4) =
        some c.length := by
      rw [List.take_left' (show (encodeLE32 c.length).length = 4 by simp [encodeLE32])]
      exact le32_roundtrip c.length hc
    have hdrop :
        (encodeLE32 c.length ++ (c ++ (cs.map fun d => encodeLE32 d.length ++ d).flatten)).drop 4 =
        c ++ (cs.map fun d => encodeLE32 d.length ++ d).flatten :=
      List.drop_left' (show (encodeLE32 c.length).length = 4 by simp [encodeLE32])
    simp only [vorbisCommentLoop, hread, hdrop, List.take_left, List.drop_left]
    rw [ih (acc ++ [c]) fun x hx => h x (by simp [hx])]
    simp

theorem vorbisCommentLoop_some_of_available (tc : Nat) :
    ∀ rest acc, commentLengthsAvailable tc rest = true →
      ∃ cs, vorbisCommentLoop tc rest acc = some (acc ++ cs) ∧ cs.length = tc := by
  induction tc with
  | zero =>
    intro rest acc _
    exact ⟨[], by simp [vorbisCommentLoop], rfl⟩
  | succ n ih =>
    intro rest acc h
    unfold commentLengthsAvailable at h
    rcases hr : binaryLittleEndianUint32 (rest.take 4) with _ | len
    · exfalso
      have hl := (binaryLittleEndianUint32_none_iff _).1 hr
      simp only [List.length_take] at hl
      simp only [Bool.and_eq_true, decide_eq_true_eq] at h
      omega
    · simp only [hr, Option.getD_some, Bool.and_eq_true] at h
      obtain ⟨cs, hcs, hlen⟩ :=
        ih ((rest.drop 4).drop len) (acc ++ [(rest.drop 4).take len]) h.2
      refine ⟨(rest.drop 4).take len :: cs, ?_, by simp [hlen]⟩
      simp only [vorbisCommentLoop, hr]
      rw [hcs]
      simp

theorem vorbisCommentLoop_none_of_unavailable (tc : Nat) :
    ∀ rest acc, commentLengthsAvailable tc rest = false →
      vorbisCommentLoop tc rest acc = none := by
  induction tc with
  | zero =>
    intro rest acc h
    simp [commentLengthsAvailable] at h
  | succ n ih =>
    intro rest acc h
    unfold commentLengthsAvailable at h
    rcases hr : binaryLittleEndianUint32 (rest.take 4) with _ | len
    · simp only [vorbisCommentLoop, hr]
    · have h4 : 4 ≤ rest.length := by
        by_contra hc
        have hn : binaryLittleEndianUint32 (rest.take 4) = none :=
          (binaryLittleEndianUint32_none_iff _).2 (by simp only [List.length_take]; omega)
        rw [hn] at hr
        cases hr
      rw [decide_eq_true h4, Bool.true_and] at h
      simp only [hr, Option.getD_some] at h
      simp only [vorbisCommentLoop, hr]
      exact ih _ _ h

/-! ### Claim C2: truncated VORBIS_COMMENT bodies -/

/-- C2 counterexample: a body declaring commentCount = 3 whose buffer holds
only 2 complete (length, string) entries — the third entry has a length
field declaring 5 bytes but no content bytes at all — decodes NORMALLY to a
3-element comment list (third comment silently truncated to empty), rather
than failing with a BoundsError and returning no partial comment list. -/
theorem c2_counterexample :
    FLACParseVorbisCommentBlock
        [0, 0, 0, 0, 3, 0, 0, 0, 0, 0, 0, 0, 0, 0, 0, 0, 5, 0, 0, 0] =
      some { Vendor := [], TotalComments := 3, Comments := [[], [], []] } := by
  decide

/-- C2 amended: the decode aborts with no partial comment list only when a
32-bit length field (vendor length, comment count, or one of the declared
comment lengths) lacks its full 4 bytes at the position where it is read,
and the abort is the implicit out-of-range panic of the little-endian read
(modelled `none`), not a typed BoundsError; in particular a body declaring
commentCount = 3 whose bytes end right after 2 complete entries panics with
no partial result.  When every length field is readable, truncated string
content is silently accepted (see the counterexample). -/
theorem c2_amended_length_field_panic :
    (∀ block : List Nat, vorbisFieldsAvailable block = false →
      FLACParseVorbisCommentBlock block = none) ∧
    FLACParseVorbisCommentBlock
        [0, 0, 0, 0, 3, 0, 0, 0, 0, 0, 0, 0, 0, 0, 0, 0] = none := by
  refine ⟨?_, by decide⟩
  intro block h
  unfold vorbisFieldsAvailable at h
  rcases hr1 : binaryLittleEndianUint32 (block.take 4) with _ | vlen
  · simp only [FLACParseVorbisCommentBlock, hr1]
  have h4 : 4 ≤ block.length := by
    by_contra hc
    have hn : binaryLittleEndianUint32 (block.take 4) = none :=
      (binaryLittleEndianUint32_none_iff _).2 (by simp only [List.length_take]; omega)
    rw [hn] at hr1
    cases hr1
  rw [decide_eq_true h4, Bool.true_and] at h
  simp only [hr1, Option.getD_some] at h
  rcases hr2 : binaryLittleEndianUint32 (((block.drop 4).drop vlen).take 4) with _ | cnt
  · simp only [FLACParseVorbisCommentBlock, hr1, hr2]
  have h4b : 4 ≤ ((block.drop 4).drop vlen).length := by
    by_contra hc
    have hn : binaryLittleEndianUint32 (((block.drop 4).drop vlen).take 4) = none :=
      (binaryLittleEndianUint32_none_iff _).2 (by simp only [List.length_take]; omega)
    rw [hn] at hr2
    cases hr2
  rw [decide_eq_true h4b, Bool.true_and] at h
  simp only [hr2, Option.getD_some] at h
  simp only [FLACParseVorbisCommentBlock, hr1, hr2,
    vorbisCommentLoop_none_of_unavailable cnt _ [] h]

/-- C2 amended witness: the empty buffer lacks the vendor-length field and
the decode panics (no partial result). -/
theorem c2_amended_witness :
    vorbisFieldsAvailable [] = false ∧ FLACParseVorbisCommentBlock [] = none :=
  ⟨by decide, c2_amended_length_field_panic.1 [] (by decide)⟩

/-! ### Claim C9: well-formed VORBIS_COMMENT bodies -/

/-- C9: the decoder reads, in order, a 32-bit little-endian vendor length,
that many vendor bytes, a 32-bit little-endian comment count, then per
declared comment a 32-bit little-endian length and that many bytes,
appending comments in read order; a body with vendorLength = 0 and
commentCount = 0 yields an empty vendor and an empty comment sequence. -/
theorem c9_vorbis_decode_order :
    (∀ (vendor : List Nat) (comments : List (List Nat)),
      vendor.length < 2 ^ 32 → comments.length < 2 ^ 32 →
      (∀ c ∈ comments, c.length < 2 ^ 32) →
      FLACParseVorbisCommentBlock (encodeVorbisComment vendor comments) =
        some { Vendor := vendor, TotalComments := comments.length,
               Comments := comments }) ∧
    FLACParseVorbisCommentBlock (encodeVorbisComment [] []) =
      some { Vendor := [], TotalComments := 0, Comments := [] } := by
  refine ⟨?_, by decide⟩
  intro vendor comments hv hcnt hall
  have e1 : (encodeVorbisComment vendor comments).take 4 = encodeLE32 vendor.length := by
    unfold encodeVorbisComment
    exact List.take_left' (show (encodeLE32 vendor.length).length = 4 by simp [encodeLE32])
  have e2 : (encodeVorbisComment vendor comments).drop 4 =
      vendor ++ (encodeLE32 comments.length ++
        (comments.map fun c => encodeLE32 c.length ++ c).flatten) := by
    unfold encodeVorbisComment
    exact List.drop_left' (show (encodeLE32 vendor.length).length = 4 by simp [encodeLE32])
  simp only [FLACParseVorbisCommentBlock, e1, le32_roundtrip vendor.length hv, e2,
    List.take_left, List.drop_left,
    List.take_left' (show (encodeLE32 comments.length).length = 4 by simp [encodeLE32]),
    List.drop_left' (show (encodeLE32 comments.length).length = 4 by simp [encodeLE32]),
    le32_roundtrip comments.length hcnt,
    vorbisCommentLoop_encode comments [] hall]
  simp

/-- C9 witness at a concrete vendor and two comments (one of them empty). -/
theorem c9_witness :
    FLACParseVorbisCommentBlock (encodeVorbisComment [65] [[66, 67], []]) =
      some { Vendor := [65], TotalComments := 2, Comments := [[66, 67], []] } :=
  c9_vorbis_decode_order.1 [65] [[66, 67], []] (by decide) (by decide) (by decide)

/-! ### Claim C10: silent truncation with readable length fields -/

/-- C10: whenever the vendor-length field, the comment-count field and all
declared comment-length fields have their full 4 bytes at the positions
where they are read, the decoder returns normally with a comment list whose
length equals the declared TotalComments; over-long vendor or comment
string lengths are silently truncated by the cursor, never an error. -/
theorem c10_vorbis_total_when_lengths_available (block : List Nat)
    (h : vorbisFieldsAvailable block = true) :
    ∃ vcb, FLACParseVorbisCommentBlock block = some vcb ∧
      vcb.Comments.length = vcb.TotalComments := by
  unfold vorbisFieldsAvailable at h
  rcases hr1 : binaryLittleEndianUint32 (block.take 4) with _ | vlen
  · exfalso
    have hl := (binaryLittleEndianUint32_none_iff _).1 hr1
    simp only [List.length_take] at hl
    simp only [Bool.and_eq_true, decide_eq_true_eq] at h
    omega
  simp only [hr1, Option.getD_some, Bool.and_eq_true, decide_eq_true_eq] at h
  rcases hr2 : binaryLittleEndianUint32 (((block.drop 4).drop vlen).take 4) with _ | cnt
  · exfalso
    have hl := (binaryLittleEndianUint32_none_iff _).1 hr2
    simp only [List.length_take] at hl
    omega
  simp only [hr2, Option.getD_some] at h
  obtain ⟨cs, hcs, hlen⟩ :=
    vorbisCommentLoop_some_of_available cnt (((block.drop 4).drop vlen).drop 4) [] h.2.2
  refine ⟨{ Vendor := (block.drop 4).take vlen, TotalComments := cnt, Comments := cs },
    ?_, by simpa using hlen⟩
  simp only [FLACParseVorbisCommentBlock, hr1, hr2, hcs]
  simp

/-- C10 witness: vendorLength 0, commentCount 1, declared comment length 5
with only 1 content byte present: normal return, 1 = TotalComments. -/
theorem c10_witness :
    ∃ vcb, FLACParseVorbisCommentBlock [0, 0, 0, 0, 1, 0, 0, 0, 5, 0, 0, 0, 65] =
        some vcb ∧ vcb.Comments.length = vcb.TotalComments :=
  c10_vorbis_total_when_lengths_available _ (by decide)

/-! ### Claims C6 and C7: the block-type registry -/

/-- C6 counterexample: the registry holds exactly 8 known codes, not 17. -/
theorem c6_counterexample :
    METADATA_BLOCK_HEADER_TYPES.length = 8 ∧ METADATA_BLOCK_HEADER_TYPES.length ≠ 17 := by
  decide

/-- C6 amended: the block-type registry is a static mapping containing
exactly 8 known codes (0 STREAMINFO through 6 PICTURE, plus 127 INVALID),
and every code absent from it maps to the generic "UNKNOWN" marker. -/
theorem c6_amended_registry_eight_codes :
    METADATA_BLOCK_HEADER_TYPES.map Prod.fst = [0, 1, 2, 3, 4, 5, 6, 127] ∧
    METADATA_BLOCK_HEADER_TYPES.length = 8 ∧
    (∀ k, METADATA_BLOCK_HEADER_TYPES.lookup k = none → HeaderType k = "UNKNOWN") := by
  refine ⟨by decide, by decide, ?_⟩
  intro k h
  simp [HeaderType, mapIndexHeaderTypes, h]

/-- C6 amended witness: code 64 is absent and maps to "UNKNOWN". -/
theorem c6_amended_witness :
    METADATA_BLOCK_HEADER_TYPES.lookup 64 = none ∧ HeaderType 64 = "UNKNOWN" :=
  ⟨by decide, c6_amended_registry_eight_codes.2.2 64 (by decide)⟩

theorem headerType_lookup_some {k : Nat} {name : String}
    (h : METADATA_BLOCK_HEADER_TYPES.lookup k = some name) : HeaderType k = name := by
  simp only [METADATA_BLOCK_HEADER_TYPES, List.lookup] at h
  repeat' split at h
  all_goals simp_all [HeaderType, mapIndexHeaderTypes, METADATA_BLOCK_HEADER_TYPES, List.lookup]
  all_goals intro he
  all_goals subst he
  all_goals exact absurd h (by decide)

/-- C7: `HeaderType` is a total lookup: every registered code returns its
canonical name, every other code returns the single "UNKNOWN" sentinel, and
code 127 returns the literal "INVALID", distinct from the sentinel returned
for unregistered codes such as 64. -/
theorem c7_headerType_total_lookup :
    (∀ k name, METADATA_BLOCK_HEADER_TYPES.lookup k = some name → HeaderType k = name) ∧
    (∀ k, METADATA_BLOCK_HEADER_TYPES.lookup k = none → HeaderType k = "UNKNOWN") ∧
    HeaderType 127 = "INVALID" ∧ HeaderType 64 = "UNKNOWN" ∧
    ("INVALID" : String) ≠ "UNKNOWN" := by
  refine ⟨fun k name h => headerType_lookup_some h, ?_, by decide, by decide, by decide⟩
  intro k h
  simp [HeaderType, mapIndexHeaderTypes, h]

/-- C7 witness: applied at registered code 0 and unregistered code 64. -/
theorem c7_witness : HeaderType 0 = "STREAMINFO" ∧ HeaderType 64 = "UNKNOWN" :=
  ⟨c7_headerType_total_lookup.1 0 "STREAMINFO" (by decide),
   c7_headerType_total_lookup.2.1 64 (by decide)⟩

end GoFlacMeta
